import Mathlib

/-!
Verification development for the teams-cicd-bot repository.

Shallow embedding of the core logic:
  * `bot/command_parser.py`   — `parse_command`
  * `octopus_client/client.py`— `OctopusClient` (deploy / get_status / rollback)
  * `audit/logger.py`         — `AuditLogger` (log / get_history)
  * `bot/deploy_bot.py`       — `DeployBot` message handlers (as effect traces)
  * `approval/manager.py`     — `ApprovalManager` (registry, response, expiry)

Machine-level string operations from Python (`str.strip`, `str.lower`,
`str.split`, `re.sub` for the mention pattern, substring containment) are
embedded over `List Char`.  ASCII semantics are used for lowering and
whitespace, which covers the command grammar of this repository.
-/

namespace Py

/-- Python whitespace characters recognised by `str.strip` / `str.split`. -/
def isWS (c : Char) : Bool :=
  c == ' ' || c == '\t' || c == '\n' || c == '\r' || c == '\x0b' || c == '\x0c'

/-- ASCII lowering of a single character (Python `str.lower` on ASCII input). -/
def pyLowerChar (c : Char) : Char :=
  match c with
  | 'A' => 'a' | 'B' => 'b' | 'C' => 'c' | 'D' => 'd' | 'E' => 'e' | 'F' => 'f'
  | 'G' => 'g' | 'H' => 'h' | 'I' => 'i' | 'J' => 'j' | 'K' => 'k' | 'L' => 'l'
  | 'M' => 'm' | 'N' => 'n' | 'O' => 'o' | 'P' => 'p' | 'Q' => 'q' | 'R' => 'r'
  | 'S' => 's' | 'T' => 't' | 'U' => 'u' | 'V' => 'v' | 'W' => 'w' | 'X' => 'x'
  | 'Y' => 'y' | 'Z' => 'z'
  | c => c

/-- `str.lower` over the character list. -/
def pyLowerList (cs : List Char) : List Char := cs.map pyLowerChar

/-- `str.lower` on strings. -/
def pyLowerStr (s : String) : String := String.mk (pyLowerList s.data)

/-- `str.strip` : drop leading and trailing whitespace. -/
def pyStrip (cs : List Char) : List Char :=
  ((cs.dropWhile isWS).reverse.dropWhile isWS).reverse

/-- Worker for `str.split()` : `acc` holds the current word, reversed. -/
def splitAux : List Char → List Char → List (List Char)
  | [], acc => if acc.isEmpty then [] else [acc.reverse]
  | c :: t, acc =>
    if isWS c then
      if acc.isEmpty then splitAux t [] else acc.reverse :: splitAux t []
    else
      splitAux t (c :: acc)

/-- Python `str.split()` (split on whitespace runs, dropping empty words). -/
def pySplit (cs : List Char) : List (List Char) := splitAux cs []

/-- Python `str.split()` producing `String` tokens. -/
def pySplitStr (s : String) : List String := (pySplit s.data).map String.mk

/-- Does `pre` occur at the very start of `cs`?  (Python `str.startswith`.) -/
def startsWithChars : List Char → List Char → Bool
  | [], _ => true
  | _ :: _, [] => false
  | p :: ps, c :: cs => p == c && startsWithChars ps cs

/-- Python `needle in hay` : contiguous-substring test. -/
def containsSub (needle : List Char) (hay : List Char) : Bool :=
  match hay with
  | [] => needle.isEmpty
  | _ :: t => startsWithChars needle hay || containsSub needle t

/-- Drop the literal `lit` from the front of `cs`, if present. -/
def dropLit : List Char → List Char → Option (List Char)
  | [], cs => some cs
  | _ :: _, [] => none
  | p :: ps, c :: cs => if p == c then dropLit ps cs else none

/--
Try to match the regex `<at>[^<]*</at>` at the start of `cs`.
The greedy run of `[^<]*` never needs back-tracking here, because the
following literal starts with `<`, which the run can never consume.
Returns the remainder after the match.
-/
def matchMention (cs : List Char) : Option (List Char) := do
  let r1 ← dropLit "<at>".data cs
  let r2 := r1.dropWhile (fun c => c != '<')
  dropLit "</at>".data r2

/-- Single left-to-right pass of `re.sub(r"<at>[^<]*</at>", "", text)`,
with explicit fuel (one unit per character consumed). -/
def resubAux : Nat → List Char → List Char
  | 0, cs => cs
  | _ + 1, [] => []
  | n + 1, c :: t =>
    match matchMention (c :: t) with
    | some rest => resubAux n rest
    | none => c :: resubAux n t

/-- `re.sub(r"<at>[^<]*</at>", "", text)` : every match removes at least
nine characters, so `length` fuel suffices. -/
def resub (cs : List Char) : List Char := resubAux cs.length cs

end Py

/-! ## `bot/command_parser.py` -/

open Py

/-- The `ParsedCommand` dataclass of `bot/command_parser.py`. -/
structure ParsedCommand where
  action : String
  app : Option String := none
  branch : Option String := none
  build_number : Option String := none
  environment : Option String := none
  raw : String := ""
  error : Option String := none
deriving DecidableEq, Repr

def VALID_ENVS : List String := ["qa", "uat", "prod"]

def VALID_ACTIONS : List String := ["build", "deploy", "status", "rollback", "history", "help"]

/-- Lines 38–44 of `parse_command`: strip the message, then (when an
`<at>` occurs) remove the Teams mention markup and strip again. -/
def stripAndUnmention (message : String) : String :=
  let text := pyStrip message.data
  let text := if containsSub "<at>".data text then pyStrip (resub text) else text
  String.mk text

/-- The token list Python computes as `text.lower().split()`. -/
def lowerTokens (text : String) : List String :=
  (pySplit (pyLowerList text.data)).map String.mk

/-- The body of `parse_command` after pre-processing: `raw` is the
mention-stripped text, `parts` the lowered whitespace tokens. -/
def parseTextCore (raw : String) (parts : List String) : ParsedCommand :=
  match parts with
  | [] => { action := "help", raw := raw }
  | action :: rest =>
    if ¬ (VALID_ACTIONS.contains action) then
      { action := "unknown", raw := raw,
        error := some ("Unknown command `" ++ action ++ "`. Type `help` to see available commands.") }
    else if action = "help" then
      { action := "help", raw := raw }
    else if action = "build" then
      match rest with
      | app :: branch :: _ =>
        { action := "build", app := some app, branch := some branch, raw := raw }
      | _ =>
        { action := "build", raw := raw,
          error := some "Usage: `build <app> <branch>`  e.g. `build myapp main`" }
    else if action = "deploy" then
      match rest with
      | app :: bn :: env :: _ =>
        if VALID_ENVS.contains env then
          { action := "deploy", app := some app, build_number := some bn,
            environment := some env, raw := raw }
        else
          { action := "deploy", raw := raw,
            error := some ("Invalid environment `" ++ env ++ "`. Choose from: qa, uat, prod") }
      | _ =>
        { action := "deploy", raw := raw,
          error := some "Usage: `deploy <app> <build#> <qa|uat|prod>`  e.g. `deploy myapp 42 qa`" }
    else if action = "status" then
      match rest with
      | app :: _ => { action := "status", app := some app, raw := raw }
      | _ =>
        { action := "status", raw := raw,
          error := some "Usage: `status <app>`  e.g. `status myapp`" }
    else if action = "rollback" then
      match rest with
      | app :: env :: _ =>
        if VALID_ENVS.contains env then
          { action := "rollback", app := some app, environment := some env, raw := raw }
        else
          { action := "rollback", raw := raw,
            error := some ("Invalid environment `" ++ env ++ "`. Choose from: qa, uat, prod") }
      | _ =>
        { action := "rollback", raw := raw,
          error := some "Usage: `rollback <app> <environment>`  e.g. `rollback myapp prod`" }
    else if action = "history" then
      match rest with
      | app :: _ => { action := "history", app := some app, raw := raw }
      | _ =>
        { action := "history", raw := raw,
          error := some "Usage: `history <app>`  e.g. `history myapp`" }
    else
      { action := "unknown", raw := raw, error := some "Could not parse command." }

/-- `parse_command` of `bot/command_parser.py`. -/
def parse_command (message : String) : ParsedCommand :=
  let text := stripAndUnmention message
  parseTextCore text (lowerTokens text)

example : parse_command "build myapp main" =
    { action := "build", app := some "myapp", branch := some "main", raw := "build myapp main" } := by
  decide

example : (parse_command "build myapp").error ≠ none := by decide

example : parse_command "<at>DeployBot</at> deploy MyApp 42 PROD" =
    { action := "deploy", app := some "myapp", build_number := some "42",
      environment := some "prod", raw := "deploy MyApp 42 PROD" } := by
  decide

example : (parse_command "").action = "help" := by decide

example : (parse_command "deploy myapp 42 staging").error ≠ none := by decide

/-! ## `octopus_client/client.py` -/

/-- A Python dict used as an operation result: string keys, values that are
either strings or Python `None`. -/
abbrev PyDict := List (String × Option String)

/-- Python string interpolation of an optional value (`None` prints as `"None"`). -/
def optStr (o : Option String) : String := o.getD "None"

/-- `d.get(k, dflt)` on a `PyDict` (a present `None` value prints as `"None"`). -/
def pyDictGet (d : PyDict) (k : String) (dflt : String) : String :=
  match d.lookup k with
  | some v => optStr v
  | none => dflt

namespace Octo

/-- Outcome of one HTTP call of the client: the parsed payload, or any
exception raised by the transport layer (modelled by its message). -/
inductive Fetched (α : Type) where
  | ok (a : α)
  | transportError (msg : String)

/-- An item of `GET /projects?name=...` (only the used field). -/
structure ProjItem where
  Id : String
deriving DecidableEq, Repr

/-- An item of `GET /environments?name=...` (only the used field). -/
structure EnvItem where
  Id : String
deriving DecidableEq, Repr

/-- An item of `GET /projects/{id}/releases` (only the used fields). -/
structure Release where
  Id : String
  Version : String
deriving DecidableEq, Repr

/-- An item of `GET /deployments?projects=...`; every field is read with
`d.get(key, default)`, so each is optional. -/
structure DeploymentItem where
  EnvironmentId : Option String
  ReleaseId : Option String
  State : Option String
  Created : Option String
deriving DecidableEq, Repr

/-- The JSON body posted to `POST /deployments`. -/
structure DeployPost where
  ReleaseId : String
  EnvironmentId : String
  Comments : String
deriving DecidableEq, Repr

/-- The response of `POST /deployments`; `result.get("Id")` may be absent. -/
structure PostResult where
  Id : Option String
deriving DecidableEq, Repr

/-- The external release system together with the configuration the client
reads from `settings`.  Each field is the (deterministic) response of one
endpoint; `releasesAll` is the full most-recent-first release list of a
project, of which a `take=n` request returns the first `n`. -/
structure OctoWorld where
  octopusUrl : String
  spaceId : String
  projects : String → Fetched (List ProjItem)
  environments : String → Fetched (List EnvItem)
  releasesAll : String → Fetched (List Release)
  deployments : String → Fetched (List DeploymentItem)
  postDeployment : DeployPost → Fetched PostResult

/-- `GET /projects/{pid}/releases?take=n`. -/
def releasesPage (w : OctoWorld) (pid : String) (n : Nat) : Fetched (List Release) :=
  match w.releasesAll pid with
  | .ok l => .ok (l.take n)
  | .transportError m => .transportError m

/-- A Python exception inside a client helper: the `ValueError`s the
helpers raise themselves, or any other exception (transport). -/
inductive PyErr where
  | valueError (msg : String)
  | otherError (msg : String)
deriving DecidableEq, Repr

/-- `str(e)` for a caught exception. -/
def PyErr.str : PyErr → String
  | .valueError m => m
  | .otherError m => m

/-- `OctopusClient._get_project_id`. -/
def getProjectId (w : OctoWorld) (app : String) : Except PyErr String :=
  match w.projects app with
  | .transportError m => .error (.otherError m)
  | .ok [] => .error (.valueError ("No Octopus project found for app `" ++ app ++
      "`. Make sure the project name in Octopus matches exactly."))
  | .ok (p :: _) => .ok p.Id

def ENV_NAME_MAP : List (String × String) := [("qa", "QA"), ("uat", "UAT"), ("prod", "Production")]

/-- `ENV_NAME_MAP.get(environment.lower(), environment)`. -/
def canonEnvName (environment : String) : String :=
  (ENV_NAME_MAP.lookup (pyLowerStr environment)).getD environment

/-- `OctopusClient._get_environment_id`. -/
def getEnvironmentId (w : OctoWorld) (environment : String) : Except PyErr String :=
  let envName := canonEnvName environment
  match w.environments envName with
  | .transportError m => .error (.otherError m)
  | .ok [] => .error (.valueError ("No Octopus environment found for `" ++ environment ++
      "`. Expected environment named `" ++ envName ++ "` in Octopus."))
  | .ok (e :: _) => .ok e.Id

/-- First release whose `Version` contains the build number as a substring. -/
def findRelease (bn : String) : List Release → Option Release
  | [] => none
  | r :: rs => if containsSub bn.data r.Version.data then some r else findRelease bn rs

/-- `OctopusClient._get_release_id` (page of 100 releases, substring match). -/
def getReleaseId (w : OctoWorld) (pid bn : String) : Except PyErr String :=
  match releasesPage w pid 100 with
  | .transportError m => .error (.otherError m)
  | .ok items =>
    match findRelease bn items with
    | some r => .ok r.Id
    | none => .error (.valueError ("No Octopus release found containing build number `" ++ bn ++
        "`. Ensure Jenkins publishes a release to Octopus with version containing the build number."))

/-- The two `except` clauses of `deploy`: `ValueError` keeps its message,
any other exception is prefixed `Octopus API error: `. -/
def deployErrResult : PyErr → PyDict
  | .valueError m => [("status", some "error"), ("message", some m)]
  | .otherError m => [("status", some "error"), ("message", some ("Octopus API error: " ++ m))]

/-- `OctopusClient.deploy`.  Besides the returned dict, the list of bodies
submitted to `POST /deployments` is made explicit (a failing POST was still
submitted). -/
def deploy (w : OctoWorld) (app bn environment : String) : PyDict × List DeployPost :=
  match getProjectId w app with
  | .error e => (deployErrResult e, [])
  | .ok pid =>
    match getEnvironmentId w environment with
    | .error e => (deployErrResult e, [])
    | .ok eid =>
      match getReleaseId w pid bn with
      | .error e => (deployErrResult e, [])
      | .ok rid =>
        let payload : DeployPost :=
          ⟨rid, eid, "Triggered via Teams bot — build #" ++ bn⟩
        match w.postDeployment payload with
        | .transportError m => (deployErrResult (.otherError m), [payload])
        | .ok pr =>
          ([("status", some "triggered"),
            ("deployment_id", pr.Id),
            ("url", some (w.octopusUrl ++ "/app#/" ++ w.spaceId ++ "/deployments/" ++ optStr pr.Id))],
           [payload])

/-- The per-environment summary built by `get_status`. -/
structure EnvSummary where
  release : String
  state : String
  created : String
deriving DecidableEq, Repr

/-- The dict returned by `get_status`: either the per-environment map, or
the literal `\x7b"error": str(e)\x7d` built in the `except` clause. -/
inductive StatusResult where
  | envs (m : List (String × EnvSummary))
  | fail (msg : String)
deriving DecidableEq, Repr

/-- The keys of the returned dict. -/
def StatusResult.keys : StatusResult → List String
  | .envs m => m.map (fun p => p.1)
  | .fail _ => ["error"]

/-- One step of the summary loop: first occurrence per environment wins. -/
def addStatus (acc : List (String × EnvSummary)) (d : DeploymentItem) :
    List (String × EnvSummary) :=
  let envName := d.EnvironmentId.getD "unknown"
  if (acc.lookup envName).isSome then acc
  else acc ++ [(envName, ⟨d.ReleaseId.getD "?", d.State.getD "Unknown", d.Created.getD ""⟩)]

/-- `OctopusClient.get_status`. -/
def get_status (w : OctoWorld) (app : String) : StatusResult :=
  match getProjectId w app with
  | .error e => .fail e.str
  | .ok pid =>
    match w.deployments pid with
    | .transportError m => .fail m
    | .ok items => .envs (items.foldl addStatus [])

/-- The two `except` clauses of `rollback` (generic prefix `Rollback error: `). -/
def rollbackErrResult : PyErr → PyDict
  | .valueError m => [("status", some "error"), ("message", some m)]
  | .otherError m => [("status", some "error"), ("message", some ("Rollback error: " ++ m))]

/-- `OctopusClient.rollback`: fetch two most-recent releases and redeploy
the second.  The submitted POST bodies are made explicit as in `deploy`. -/
def rollback (w : OctoWorld) (app environment : String) : PyDict × List DeployPost :=
  match getProjectId w app with
  | .error e => (rollbackErrResult e, [])
  | .ok pid =>
    match getEnvironmentId w environment with
    | .error e => (rollbackErrResult e, [])
    | .ok eid =>
      match releasesPage w pid 2 with
      | .transportError m => (rollbackErrResult (.otherError m), [])
      | .ok items =>
        match items with
        | _ :: prev :: _ =>
          let payload : DeployPost :=
            ⟨prev.Id, eid, "Rollback via Teams bot — reverting to " ++ prev.Version⟩
          match w.postDeployment payload with
          | .transportError m => (rollbackErrResult (.otherError m), [payload])
          | .ok pr =>
            ([("status", some "triggered"),
              ("rollback_to", some prev.Version),
              ("deployment_id", pr.Id)],
             [payload])
        | _ =>
          ([("status", some "error"),
            ("message", some "No previous release found to roll back to.")], [])

end Octo

/-! ## `audit/logger.py` -/

namespace Audit

/-- A row of the `audit_log` table.  `rowId` is the AUTOINCREMENT primary
key; `details`/`result` are the JSON-serialised dicts, modelled as the
dicts themselves (string keys and values, as written by the callers). -/
structure AuditRow where
  rowId : Nat
  timestamp : String
  user : String
  action : String
  app : String
  details : PyDict
  result : PyDict
deriving DecidableEq, Repr

/-- The SQLite database: rows in insertion order plus the next
AUTOINCREMENT value.  Rows are never updated or deleted. -/
structure AuditDb where
  rows : List AuditRow
  nextId : Nat
deriving DecidableEq, Repr

def emptyDb : AuditDb := ⟨[], 1⟩

/-- `AuditLogger.log`: append one record with a fresh ascending id. -/
def log (db : AuditDb) (timestamp user action app : String)
    (details result : PyDict) : AuditDb :=
  ⟨db.rows ++ [⟨db.nextId, timestamp, user, action, app, details, result⟩], db.nextId + 1⟩

/-- The summary dict produced per row by `get_history`. -/
structure Summary where
  timestamp : String
  user : String
  action : String
  result : String
deriving DecidableEq, Repr

/-- `res.get("status", "unknown")` applied to the stored result dict. -/
def summarize (r : AuditRow) : Summary :=
  ⟨r.timestamp, r.user, r.action, pyDictGet r.result "status" "unknown"⟩

/-- Insert into a list sorted by descending `rowId`. -/
def insertDesc (r : AuditRow) : List AuditRow → List AuditRow
  | [] => [r]
  | x :: xs => if x.rowId ≤ r.rowId then r :: x :: xs else x :: insertDesc r xs

/-- `ORDER BY id DESC` over the matching rows. -/
def sortByIdDesc (l : List AuditRow) : List AuditRow := l.foldr insertDesc []

/-- `AuditLogger.get_history`: rows of the app, sorted by id descending,
limited, summarised. -/
def get_history (db : AuditDb) (app : String) (limit : Nat) : List Summary :=
  ((sortByIdDesc (db.rows.filter (fun r => r.app = app))).take limit).map summarize

/-- Databases reachable from the empty table by `log` calls only: the only
states the program creates (the table has no update or delete path). -/
inductive Reached : AuditDb → Prop
  | empty : Reached emptyDb
  | log : Reached db → Reached (log db ts u a ap d r)

end Audit

/-! ## `bot/deploy_bot.py` (handlers as effect traces) -/

namespace Bot

/-- `Settings.APPROVAL_REQUIRED_ENVS` of `config/settings.py`. -/
def APPROVAL_REQUIRED_ENVS : List String := ["uat", "prod"]

/-- The Adaptive Cards built in `bot/cards.py`, abstracted to their
constructor arguments. -/
inductive Card where
  | buildTriggered (app branch : Option String) (user : String)
  | deployTriggered (app build env : Option String) (user : String)
  | approvalRequest (approvalId : String) (app build env : Option String)
      (requestedBy : String) (isRollback : Bool)
  | statusCard (app : Option String) (data : Octo.StatusResult)
  | errorCard (msg : String)
  | helpCard
deriving DecidableEq, Repr

/-- An observable effect of a `DeployBot` handler, in program order. -/
inductive BotEff where
  | sendCard (c : Card)
  | sendText (txt : String)
  | jenkinsTriggerBuild (app branch : Option String)
  | octoDeploy (app bn env : Option String)
  | octoGetStatus (app : Option String)
  | auditWrite (user action : String) (app : Option String) (details result : PyDict)
  | approvalCreate (app bn env : Option String) (requestedBy : String) (isRollback : Bool)
  | auditHistoryRead (app : Option String)
deriving DecidableEq, Repr

/-- `env not in settings.APPROVAL_REQUIRED_ENVS`, negated.  A Python `None`
environment is never a member of the list. -/
def envRequiresApproval : Option String → Bool
  | some e => APPROVAL_REQUIRED_ENVS.contains e
  | none => false

/-- `DeployBot._handle_build`.  `jenkinsResult` is the dict the Jenkins
collaborator returns for this call. -/
def handle_build (jenkinsResult : PyDict) (cmd : ParsedCommand) (user : String) : List BotEff :=
  [ .sendCard (.buildTriggered cmd.app cmd.branch user),
    .jenkinsTriggerBuild cmd.app cmd.branch,
    .auditWrite user "build" cmd.app [("branch", cmd.branch)] jenkinsResult ]

/-- `DeployBot._handle_deploy`.  `octoResult` is the dict `octopus.deploy`
would return; `newApprovalId` the id `approvals.create` would allocate. -/
def handle_deploy (octoResult : PyDict) (newApprovalId : String)
    (cmd : ParsedCommand) (user : String) : List BotEff :=
  if envRequiresApproval cmd.environment = false then
    [ .sendCard (.deployTriggered cmd.app cmd.build_number cmd.environment user),
      .octoDeploy cmd.app cmd.build_number cmd.environment,
      .auditWrite user "deploy" cmd.app
        [("build", cmd.build_number), ("env", cmd.environment)] octoResult ]
  else
    [ .approvalCreate cmd.app cmd.build_number cmd.environment user false,
      .sendCard (.approvalRequest newApprovalId cmd.app cmd.build_number cmd.environment user false) ]

/-- `DeployBot._handle_status`. -/
def handle_status (statusData : Octo.StatusResult) (cmd : ParsedCommand) : List BotEff :=
  [ .octoGetStatus cmd.app,
    .sendCard (.statusCard cmd.app statusData) ]

/-- `DeployBot._handle_rollback`: always gated, `build_number="previous"`. -/
def handle_rollback (newApprovalId : String) (cmd : ParsedCommand) (user : String) : List BotEff :=
  [ .approvalCreate cmd.app (some "previous") cmd.environment user true,
    .sendCard (.approvalRequest newApprovalId cmd.app (some "previous") cmd.environment user true) ]

/-- One line of the `_handle_history` reply. -/
def historyLine (r : Audit.Summary) : String :=
  "• `" ++ r.action ++ "` by **" ++ r.user ++ "** → " ++ r.result ++ " _" ++ r.timestamp ++ "_"

/-- `DeployBot._handle_history`. -/
def handle_history (records : List Audit.Summary) (cmd : ParsedCommand) : List BotEff :=
  [ .auditHistoryRead cmd.app,
    .sendText (String.intercalate "\n"
      (("📋 **Last " ++ toString records.length ++ " actions for `" ++ optStr cmd.app ++ "`:**\n")
        :: records.map historyLine)) ]

/--
`DeployBot.on_message_activity`.  The collaborator responses this turn
would see are passed as oracles (`jenkinsResult`, `octoDeployResult`,
`statusData`, `historyRecords`, `newApprovalId`); the parser never produces
an empty error string, so `cmd.error` truthiness is `Option.isSome`.
-/
def on_message_activity (jenkinsResult octoDeployResult : PyDict)
    (statusData : Octo.StatusResult) (historyRecords : List Audit.Summary)
    (newApprovalId : String) (text user : String) : List BotEff :=
  let cmd := parse_command text
  match cmd.error with
  | some e => [.sendCard (.errorCard e)]
  | none =>
    if cmd.action = "help" then [.sendCard .helpCard]
    else if cmd.action = "build" then handle_build jenkinsResult cmd user
    else if cmd.action = "deploy" then handle_deploy octoDeployResult newApprovalId cmd user
    else if cmd.action = "status" then handle_status statusData cmd
    else if cmd.action = "rollback" then handle_rollback newApprovalId cmd user
    else if cmd.action = "history" then handle_history historyRecords cmd
    else [.sendCard (.errorCard "Unknown command. Type `help` to see available commands.")]

end Bot

/-! ## `approval/manager.py` -/

namespace Approval

/-- The `PendingApproval` entry; `replyChannel` stands in for the saved
`turn_context`, times are seconds. -/
structure PendingApproval where
  id : String
  app : String
  build_number : String
  environment : String
  requested_by : String
  replyChannel : Nat
  is_rollback : Bool
  created_at : Nat
  expires_at : Nat
deriving DecidableEq, Repr

/-- The in-memory store `self._pending : dict[str, PendingApproval]`. -/
abbrev Registry := List (String × PendingApproval)

/-- `dict.pop(key, None)`: in one atomic step, return the entry (if any)
and the dictionary without it. -/
def dictPop : Registry → String → Option PendingApproval × Registry
  | [], _ => (none, [])
  | (k, v) :: t, i =>
    if k = i then (some v, t)
    else
      let p := dictPop t i
      (p.1, (k, v) :: p.2)

/-- The top-level Python modules importable in this repository (its
packages and top-level scripts, as laid out on disk). -/
def repoModules : List String :=
  ["app", "test_local", "test_bot_server",
   "config.settings", "bot.command_parser", "bot.cards", "bot.deploy_bot",
   "jenkins_client.client", "octopus_client.client",
   "approval.manager", "audit.logger"]

/-- Whether `import m` resolves inside this repository. -/
def moduleExists (m : String) : Bool := repoModules.contains m

/-- An observable effect of `ApprovalManager.handle_response` / `_expire`,
in program order.  The `notify…` constructors are the `send_activity`
calls, carrying the data interpolated into their messages. -/
inductive MgrEff where
  | notifyAlreadyHandled
  | notifyRejected (approver app bn env : String)
  | notifyAccepted (approver app bn env : String)
  | resolverRollback (app env : String)
  | resolverDeploy (app bn env : String)
  | auditWrite (user action app : String) (result : PyDict)
  | notifySuccessLink (link : String)
  | notifyFailure (msg : String)
  | notifyExpired (app env : String)
  | raised (msg : String)
deriving DecidableEq, Repr

/--
`ApprovalManager.handle_response`: one atomic `pop`, then the effect
sequence of the taken branch.  The approved branch first executes
`from octopus.client import OctopusClient`; that module does not exist in
this repository (the package is `octopus_client`), so the branch raises
before reaching the resolver.  The code it would run had the import
resolved is embedded under the `moduleExists` guard.
-/
def handle_response (w : Octo.OctoWorld) (reg : Registry) (approval_id : String)
    (approved : Bool) (approver : String) : Registry × List MgrEff :=
  match dictPop reg approval_id with
  | (none, reg') => (reg', [.notifyAlreadyHandled])
  | (some a, reg') =>
    if ¬ approved then
      (reg', [.notifyRejected approver a.app a.build_number a.environment])
    else
      (reg',
        .notifyAccepted approver a.app a.build_number a.environment ::
          (if moduleExists "octopus.client" && moduleExists "audit.logger" then
            let result := (if a.is_rollback then Octo.rollback w a.app a.environment
                           else Octo.deploy w a.app a.build_number a.environment).1
            let callEff := if a.is_rollback then MgrEff.resolverRollback a.app a.environment
                           else MgrEff.resolverDeploy a.app a.build_number a.environment
            let actionName := if a.is_rollback then "rollback" else "deploy"
            let outcome :=
              if pyDictGet result "status" "unknown" = "triggered" then
                MgrEff.notifySuccessLink (pyDictGet result "url" "")
              else
                MgrEff.notifyFailure ("Deployment failed: " ++ pyDictGet result "message" "Unknown error")
            [callEff, .auditWrite approver (actionName ++ "_approved") a.app result, outcome]
          else
            [.raised "ModuleNotFoundError: No module named octopus"]))

/-- The body of `ApprovalManager._expire` after the sleep: one atomic
`pop`; if the entry was still present, notify expiry (the notification is
best-effort: its own failure is swallowed and changes no state). -/
def expire_body (reg : Registry) (approval_id : String) : Registry × List MgrEff :=
  match dictPop reg approval_id with
  | (none, reg') => (reg', [])
  | (some a, reg') => (reg', [.notifyExpired a.app a.environment])

/-- Interleaving where the approver response runs before the timer body.
Returns the response trace, the timer trace, and the final registry. -/
def raceResponseFirst (w : Octo.OctoWorld) (reg : Registry) (approval_id : String)
    (approved : Bool) (approver : String) : List MgrEff × List MgrEff × Registry :=
  let r1 := handle_response w reg approval_id approved approver
  let r2 := expire_body r1.1 approval_id
  (r1.2, r2.2, r2.1)

/-- Interleaving where the timer body runs before the approver response. -/
def raceExpiryFirst (w : Octo.OctoWorld) (reg : Registry) (approval_id : String)
    (approved : Bool) (approver : String) : List MgrEff × List MgrEff × Registry :=
  let r1 := expire_body reg approval_id
  let r2 := handle_response w r1.1 approval_id approved approver
  (r2.2, r1.2, r2.1)

/-- The terminal effects of the approval state machine: execute
(a resolver invocation), reject, or expire. -/
def isTerminal : MgrEff → Bool
  | .resolverRollback _ _ => true
  | .resolverDeploy _ _ _ => true
  | .notifyRejected _ _ _ _ => true
  | .notifyExpired _ _ => true
  | _ => false

def isRaised : MgrEff → Bool
  | .raised _ => true
  | _ => false

def isResolverCall : MgrEff → Bool
  | .resolverRollback _ _ => true
  | .resolverDeploy _ _ _ => true
  | _ => false

def isAuditWrite : MgrEff → Bool
  | .auditWrite _ _ _ _ => true
  | _ => false

end Approval

namespace Bot

def isOctoDeploy : BotEff → Bool
  | .octoDeploy _ _ _ => true
  | _ => false

def isApprovalCreate : BotEff → Bool
  | .approvalCreate _ _ _ _ _ => true
  | _ => false

def isAuditWrite : BotEff → Bool
  | .auditWrite _ _ _ _ _ => true
  | _ => false

def isJenkinsBuild : BotEff → Bool
  | .jenkinsTriggerBuild _ _ => true
  | _ => false

def isOctoGetStatus : BotEff → Bool
  | .octoGetStatus _ => true
  | _ => false

end Bot

/-! ## Concrete fixtures used by evaluation theorems and witnesses -/

/-- A healthy release system: lookups succeed, two releases exist. -/
def wDemo : Octo.OctoWorld where
  octopusUrl := "https://octo.example"
  spaceId := "Spaces-1"
  projects := fun _ => .ok [⟨"Projects-1"⟩]
  environments := fun _ => .ok [⟨"Environments-1"⟩]
  releasesAll := fun _ => .ok [⟨"Releases-2", "1.0.42"⟩, ⟨"Releases-1", "1.0.41"⟩]
  deployments := fun _ => .ok []
  postDeployment := fun _ => .ok ⟨some "Deployments-77"⟩

/-- A release system whose transport raises on every call. -/
def wFail : Octo.OctoWorld where
  octopusUrl := ""
  spaceId := "Spaces-1"
  projects := fun _ => .transportError "boom"
  environments := fun _ => .transportError "boom"
  releasesAll := fun _ => .transportError "boom"
  deployments := fun _ => .transportError "boom"
  postDeployment := fun _ => .transportError "boom"

def paDemo : Approval.PendingApproval :=
  { id := "ap-1", app := "myapp", build_number := "42", environment := "uat",
    requested_by := "alice", replyChannel := 0, is_rollback := false,
    created_at := 0, expires_at := 1800 }

def regDemo : Approval.Registry := [("ap-1", paDemo)]

def paDemo2 : Approval.PendingApproval :=
  { id := "ap-2", app := "webapp", build_number := "7", environment := "prod",
    requested_by := "carol", replyChannel := 1, is_rollback := false,
    created_at := 0, expires_at := 1800 }

def regDemo2 : Approval.Registry := [("ap-2", paDemo2)]

/-! ## Claim theorems -/

/--
**C1.** Evaluation of the response/expiry race on a pending id.  The
removal itself is a single atomic `dict.pop`, and indeed in each
interleaving exactly one of the two obtains the `PendingApproval` while
the other observes the entry absent.  But the claim also requires exactly
one terminal effect, and that fails: when the approving response wins, it
raises `ModuleNotFoundError` (the import names `octopus.client` while the
package is `octopus_client`) before any execute effect, so the race
produces ZERO terminal effects — the approval is consumed without being
executed, rejected or expired.
-/
theorem approval_race_terminal_effects_eval :
    ((Approval.raceExpiryFirst wDemo regDemo "ap-1" true "bob").2.1
        = [.notifyExpired "myapp" "uat"]
      ∧ (Approval.raceExpiryFirst wDemo regDemo "ap-1" true "bob").1
        = [.notifyAlreadyHandled]
      ∧ ((Approval.raceExpiryFirst wDemo regDemo "ap-1" true "bob").1
          ++ (Approval.raceExpiryFirst wDemo regDemo "ap-1" true "bob").2.1).countP
            Approval.isTerminal = 1)
  ∧ ((Approval.raceResponseFirst wDemo regDemo "ap-1" true "bob").1
        = [.notifyAccepted "bob" "myapp" "42" "uat",
           .raised "ModuleNotFoundError: No module named octopus"]
      ∧ (Approval.raceResponseFirst wDemo regDemo "ap-1" true "bob").2.1 = []
      ∧ ((Approval.raceResponseFirst wDemo regDemo "ap-1" true "bob").1
          ++ (Approval.raceResponseFirst wDemo regDemo "ap-1" true "bob").2.1).countP
            Approval.isTerminal = 0) := by
  decide

/--
**C5.** Evaluation of `handle_response` on a present approval with
`approved=true`: the acceptance notification is sent, then the code
raises `ModuleNotFoundError` at `from octopus.client import OctopusClient`
(the repository package is `octopus_client`).  No resolver call is made,
no audit record is written, and no outcome notification is sent —
contradicting the claim and the module docstring ("executes or cancels
the deployment").
-/
theorem handle_response_approved_import_bug_eval :
    (Approval.handle_response wDemo regDemo2 "ap-2" true "dave").2
      = [.notifyAccepted "dave" "webapp" "7" "prod",
         .raised "ModuleNotFoundError: No module named octopus"]
  ∧ (Approval.handle_response wDemo regDemo2 "ap-2" true "dave").2.countP
      Approval.isResolverCall = 0
  ∧ (Approval.handle_response wDemo regDemo2 "ap-2" true "dave").2.countP
      Approval.isAuditWrite = 0
  ∧ (Approval.handle_response wDemo regDemo2 "ap-2" true "dave").1 = [] := by
  decide

/--
**C2 (counterexample).** `get_status` does not return the claimed
`\x7bstatus: error, message\x7d` shape: when the project lookup raises, it
returns a dict whose only key is `error`. -/
theorem get_status_error_shape_cex :
    Octo.get_status wFail "myapp" = .fail "boom"
  ∧ (Octo.get_status wFail "myapp").keys = ["error"]
  ∧ ¬ ("status" ∈ (Octo.get_status wFail "myapp").keys) := by
  decide

theorem deployErrResult_shape (e : Octo.PyErr) :
    (Octo.deployErrResult e).lookup "status" = some (some "error")
  ∧ ∃ m, (Octo.deployErrResult e).lookup "message" = some (some m) := by
  cases e <;> exact ⟨rfl, _, rfl⟩

theorem rollbackErrResult_shape (e : Octo.PyErr) :
    (Octo.rollbackErrResult e).lookup "status" = some (some "error")
  ∧ ∃ m, (Octo.rollbackErrResult e).lookup "message" = some (some m) := by
  cases e <;> exact ⟨rfl, _, rfl⟩

/--
**C2 (amended).** No exception escapes `deploy`, `rollback` or
`get_status`: each returns a value on every input.  `deploy` and
`rollback` return either a `triggered` result or a structured
`\x7bstatus: error, message\x7d` result on every failure path; `get_status`
catches every failure too, but returns `\x7berror: message\x7d` (no `status`
key) rather than the `\x7bstatus, message\x7d` shape.
-/
theorem resolver_failure_shapes (w : Octo.OctoWorld) (app bn env : String) :
    ((Octo.deploy w app bn env).1.lookup "status" = some (some "triggered")
      ∨ ((Octo.deploy w app bn env).1.lookup "status" = some (some "error")
          ∧ ∃ m, (Octo.deploy w app bn env).1.lookup "message" = some (some m)))
  ∧ ((Octo.rollback w app env).1.lookup "status" = some (some "triggered")
      ∨ ((Octo.rollback w app env).1.lookup "status" = some (some "error")
          ∧ ∃ m, (Octo.rollback w app env).1.lookup "message" = some (some m)))
  ∧ ((∃ m, Octo.get_status w app = .fail m)
      ∨ (∃ l, Octo.get_status w app = .envs l)) := by
  refine ⟨?_, ?_, ?_⟩
  · unfold Octo.deploy
    repeat' (first | split | dsimp only)
    all_goals first
      | (left; rfl)
      | (right; exact deployErrResult_shape _)
  · unfold Octo.rollback
    repeat' (first | split | dsimp only)
    all_goals first
      | (left; rfl)
      | (right; exact rollbackErrResult_shape _)
      | (right; exact ⟨rfl, _, rfl⟩)
  · unfold Octo.get_status
    repeat' (first | split | dsimp only)
    all_goals first
      | (left; exact ⟨_, rfl⟩)
      | (right; exact ⟨_, rfl⟩)

/--
**C6.** When project and environment resolve, `rollback` on a project with
fewer than two releases returns the `status=error` / "No previous release
found to roll back to." result and submits no deployment request; with two
or more releases it submits exactly one deployment request for the
second-most-recent release, and on a successful POST returns
`status=triggered` with `rollback_to` its version and the new deployment id.
-/
theorem rollback_previous_release (w : Octo.OctoWorld) (app env : String)
    (p : Octo.ProjItem) (ps : List Octo.ProjItem)
    (en : Octo.EnvItem) (es : List Octo.EnvItem) (rels : List Octo.Release)
    (hp : w.projects app = .ok (p :: ps))
    (he : w.environments (Octo.canonEnvName env) = .ok (en :: es))
    (hr : w.releasesAll p.Id = .ok rels) :
    (rels.length < 2 →
      Octo.rollback w app env =
        ([("status", some "error"),
          ("message", some "No previous release found to roll back to.")], []))
  ∧ (∀ r0 r1 rest, rels = r0 :: r1 :: rest →
      (Octo.rollback w app env).2 =
        [⟨r1.Id, en.Id, "Rollback via Teams bot — reverting to " ++ r1.Version⟩]
      ∧ ∀ pr, w.postDeployment
            ⟨r1.Id, en.Id, "Rollback via Teams bot — reverting to " ++ r1.Version⟩ = .ok pr →
          (Octo.rollback w app env).1 =
            [("status", some "triggered"),
             ("rollback_to", some r1.Version),
             ("deployment_id", pr.Id)]) := by
  have hbody : Octo.rollback w app env =
      (match (rels.take 2 : List Octo.Release) with
        | _ :: prev :: _ =>
          let payload : Octo.DeployPost :=
            ⟨prev.Id, en.Id, "Rollback via Teams bot — reverting to " ++ prev.Version⟩
          match w.postDeployment payload with
          | .transportError m => (Octo.rollbackErrResult (.otherError m), [payload])
          | .ok pr =>
            ([("status", some "triggered"),
              ("rollback_to", some prev.Version),
              ("deployment_id", pr.Id)],
             [payload])
        | _ =>
          ([("status", some "error"),
            ("message", some "No previous release found to roll back to.")], [])) := by
    unfold Octo.rollback Octo.getProjectId Octo.getEnvironmentId Octo.releasesPage
    rw [hp]; dsimp only
    rw [he]; dsimp only
    rw [hr]
  constructor
  · intro hlen
    rcases rels with _ | ⟨r0, _ | ⟨r1, rest⟩⟩
    · simpa using hbody
    · simpa using hbody
    · simp at hlen; omega
  · intro r0 r1 rest hrels
    subst hrels
    simp only [List.take] at hbody
    constructor
    · rw [hbody]
      cases hpost : w.postDeployment
          ⟨r1.Id, en.Id, "Rollback via Teams bot — reverting to " ++ r1.Version⟩ <;>
        simp [hpost]
    · intro pr hpr
      rw [hbody, hpr]

/--
**C6 witness**: a project that resolves but has no releases — rollback
returns the error result and submits nothing.
-/
def wNoReleases : Octo.OctoWorld where
  octopusUrl := "https://octo.example"
  spaceId := "Spaces-1"
  projects := fun _ => .ok [⟨"Projects-9"⟩]
  environments := fun _ => .ok [⟨"Environments-9"⟩]
  releasesAll := fun _ => .ok []
  deployments := fun _ => .ok []
  postDeployment := fun _ => .ok ⟨some "Deployments-1"⟩

theorem rollback_previous_release_witness :
    Octo.rollback wNoReleases "myapp" "qa" =
      ([("status", some "error"),
        ("message", some "No previous release found to roll back to.")], []) :=
  (rollback_previous_release wNoReleases "myapp" "qa"
      ⟨"Projects-9"⟩ [] ⟨"Environments-9"⟩ [] [] rfl rfl rfl).1 (by decide)

/--
**C3 (counterexample).** A `build` command with three positional
arguments (any count other than 2 should error, per the claim) parses
without error: extra arguments are silently ignored.
-/
theorem parse_build_extra_args_cex :
    lowerTokens (stripAndUnmention "build myapp main extra")
      = ["build", "myapp", "main", "extra"]
  ∧ (parse_command "build myapp main extra").error = none := by
  decide

/--
**C3 (amended).** The parser checks only a lower bound on the argument
count: a `build` command errors exactly when it has fewer than 2
positional arguments, and a `deploy` command errors exactly when it has
fewer than 3 positional arguments or its third argument is not one of
qa/uat/prod; extra arguments beyond those consumed are ignored.
-/
theorem parse_arity_amended (msg : String) :
    (∀ rest, lowerTokens (stripAndUnmention msg) = "build" :: rest →
      ((parse_command msg).error = none ↔ 2 ≤ rest.length))
  ∧ (∀ rest, lowerTokens (stripAndUnmention msg) = "deploy" :: rest →
      ((parse_command msg).error = none ↔
        (3 ≤ rest.length ∧ VALID_ENVS.contains (rest.getD 2 "") = true))) := by
  constructor
  · intro rest h
    have hb : parse_command msg = parseTextCore (stripAndUnmention msg) ("build" :: rest) := by
      unfold parse_command
      dsimp only
      rw [h]
    rw [hb]
    rcases rest with _ | ⟨a, _ | ⟨b, r⟩⟩ <;>
      simp [parseTextCore, VALID_ACTIONS]
  · intro rest h
    have hb : parse_command msg = parseTextCore (stripAndUnmention msg) ("deploy" :: rest) := by
      unfold parse_command
      dsimp only
      rw [h]
    rw [hb]
    rcases rest with _ | ⟨a, _ | ⟨b, _ | ⟨c, r⟩⟩⟩ <;>
      simp [parseTextCore, VALID_ACTIONS]
    by_cases hc : c ∈ VALID_ENVS <;> simp [hc]

/-- **C3 witness**: a well-formed `build` command with its two arguments. -/
theorem parse_arity_amended_witness :
    (parse_command "build app1 main").error = none ↔ 2 ≤ (["app1", "main"] : List String).length :=
  (parse_arity_amended "build app1 main").1 ["app1", "main"] (by decide)

/--
**C4.** For a deploy command carrying environment `e`: if `e` is in
`APPROVAL_REQUIRED_ENVS`, handling creates exactly one pending approval
and performs no resolver deploy and no audit write; if `e` is outside
that set, handling performs exactly one resolver deploy and exactly one
audit write and creates no pending approval.
-/
theorem deploy_gating (octoResult : PyDict) (newId : String) (cmd : ParsedCommand)
    (user : String) (e : String) (henv : cmd.environment = some e) :
    (Bot.APPROVAL_REQUIRED_ENVS.contains e = true →
      ((Bot.handle_deploy octoResult newId cmd user).countP Bot.isApprovalCreate = 1
        ∧ (Bot.handle_deploy octoResult newId cmd user).countP Bot.isOctoDeploy = 0
        ∧ (Bot.handle_deploy octoResult newId cmd user).countP Bot.isAuditWrite = 0))
  ∧ (Bot.APPROVAL_REQUIRED_ENVS.contains e = false →
      ((Bot.handle_deploy octoResult newId cmd user).countP Bot.isOctoDeploy = 1
        ∧ (Bot.handle_deploy octoResult newId cmd user).countP Bot.isAuditWrite = 1
        ∧ (Bot.handle_deploy octoResult newId cmd user).countP Bot.isApprovalCreate = 0)) := by
  unfold Bot.handle_deploy Bot.envRequiresApproval
  rw [henv]
  dsimp only
  constructor
  · intro hin
    rw [if_neg (by simp only [hin]; simp)]
    exact ⟨rfl, rfl, rfl⟩
  · intro hout
    rw [if_pos hout]
    exact ⟨rfl, rfl, rfl⟩

def cmdDeployProd : ParsedCommand :=
  { action := "deploy", app := some "myapp", build_number := some "42",
    environment := some "prod", raw := "deploy myapp 42 prod" }

/-- **C4 witness**: a deploy to `prod` instantiating the gating theorem. -/
theorem deploy_gating_witness :
    (Bot.APPROVAL_REQUIRED_ENVS.contains "prod" = true →
      ((Bot.handle_deploy [] "id-1" cmdDeployProd "alice").countP Bot.isApprovalCreate = 1
        ∧ (Bot.handle_deploy [] "id-1" cmdDeployProd "alice").countP Bot.isOctoDeploy = 0
        ∧ (Bot.handle_deploy [] "id-1" cmdDeployProd "alice").countP Bot.isAuditWrite = 0))
  ∧ (Bot.APPROVAL_REQUIRED_ENVS.contains "prod" = false →
      ((Bot.handle_deploy [] "id-1" cmdDeployProd "alice").countP Bot.isOctoDeploy = 1
        ∧ (Bot.handle_deploy [] "id-1" cmdDeployProd "alice").countP Bot.isAuditWrite = 1
        ∧ (Bot.handle_deploy [] "id-1" cmdDeployProd "alice").countP Bot.isApprovalCreate = 0)) :=
  deploy_gating [] "id-1" cmdDeployProd "alice" "prod" rfl

/--
**C9.** When the parse result carries an error, handling the message only
sends the error card: no build is triggered, no resolver call is made, no
approval is created, and no audit record is written.
-/
theorem error_command_no_side_effects (jr od : PyDict) (sd : Octo.StatusResult)
    (hrec : List Audit.Summary) (nid text user : String) (e : String)
    (herr : (parse_command text).error = some e) :
    Bot.on_message_activity jr od sd hrec nid text user = [.sendCard (.errorCard e)]
  ∧ (Bot.on_message_activity jr od sd hrec nid text user).countP Bot.isAuditWrite = 0
  ∧ (Bot.on_message_activity jr od sd hrec nid text user).countP Bot.isApprovalCreate = 0
  ∧ (Bot.on_message_activity jr od sd hrec nid text user).countP Bot.isJenkinsBuild = 0
  ∧ (Bot.on_message_activity jr od sd hrec nid text user).countP Bot.isOctoDeploy = 0
  ∧ (Bot.on_message_activity jr od sd hrec nid text user).countP Bot.isOctoGetStatus = 0 := by
  have hb : Bot.on_message_activity jr od sd hrec nid text user
      = [.sendCard (.errorCard e)] := by
    unfold Bot.on_message_activity
    dsimp only
    rw [herr]
  refine ⟨hb, ?_, ?_, ?_, ?_, ?_⟩ <;> rw [hb] <;> rfl

/-- **C9 witness**: the spec scenario `"build myapp"` (missing branch). -/
theorem error_command_no_side_effects_witness :
    Bot.on_message_activity [] [] (.envs []) [] "id-1" "build myapp" "alice"
      = [.sendCard (.errorCard "Usage: `build <app> <branch>`  e.g. `build myapp main`")]
  ∧ (Bot.on_message_activity [] [] (.envs []) [] "id-1" "build myapp" "alice").countP
      Bot.isAuditWrite = 0
  ∧ (Bot.on_message_activity [] [] (.envs []) [] "id-1" "build myapp" "alice").countP
      Bot.isApprovalCreate = 0
  ∧ (Bot.on_message_activity [] [] (.envs []) [] "id-1" "build myapp" "alice").countP
      Bot.isJenkinsBuild = 0
  ∧ (Bot.on_message_activity [] [] (.envs []) [] "id-1" "build myapp" "alice").countP
      Bot.isOctoDeploy = 0
  ∧ (Bot.on_message_activity [] [] (.envs []) [] "id-1" "build myapp" "alice").countP
      Bot.isOctoGetStatus = 0 :=
  error_command_no_side_effects [] [] (.envs []) [] "id-1" "build myapp" "alice"
    "Usage: `build <app> <branch>`  e.g. `build myapp main`" (by decide)

theorem parseTextCore_raw (raw : String) (parts : List String) :
    (parseTextCore raw parts).raw = raw := by
  unfold parseTextCore
  rcases parts with _ | ⟨a, rest⟩
  · rfl
  · repeat' split
    all_goals rfl

/--
**C7 (counterexample).** Parsing is not idempotent on `raw`: a single
`re.sub` pass over `<at>a<at>b</at>c</at>` removes only the inner mention
and leaves `<at>ac</at>`, a new complete mention pattern; parsing that
`raw` strips it entirely and yields the empty-input `help` command instead
of the original `unknown` result.
-/
theorem parse_idempotent_cex :
    (parse_command "<at>a<at>b</at>c</at>").raw = "<at>ac</at>"
  ∧ parse_command ((parse_command "<at>a<at>b</at>c</at>").raw)
      ≠ parse_command "<at>a<at>b</at>c</at>" := by
  decide

/--
**C7 (amended).** Re-parsing the `raw` field yields an identical result
for every input whose `raw` is stable under the mention-stripping
pre-processing — i.e. whenever one stripping pass has reached a fixpoint,
which holds for every message that does not nest mention markup.
-/
theorem parse_idempotent_of_stable (msg : String)
    (h : stripAndUnmention ((parse_command msg).raw) = (parse_command msg).raw) :
    parse_command ((parse_command msg).raw) = parse_command msg := by
  have hraw : (parse_command msg).raw = stripAndUnmention msg :=
    parseTextCore_raw (stripAndUnmention msg) (lowerTokens (stripAndUnmention msg))
  calc parse_command ((parse_command msg).raw)
      = parseTextCore (stripAndUnmention ((parse_command msg).raw))
          (lowerTokens (stripAndUnmention ((parse_command msg).raw))) := rfl
    _ = parseTextCore ((parse_command msg).raw) (lowerTokens ((parse_command msg).raw)) := by
        rw [h]
    _ = parse_command msg := by rw [hraw]; exact rfl

/-- **C7 witness**: an ordinary mixed-case command is stable, so
re-parsing its `raw` reproduces the result. -/
theorem parse_idempotent_of_stable_witness :
    parse_command ((parse_command "Deploy MyApp 42 prod").raw)
      = parse_command "Deploy MyApp 42 prod" :=
  parse_idempotent_of_stable "Deploy MyApp 42 prod" (by decide)

theorem insertDesc_append (r : Audit.AuditRow) (l : List Audit.AuditRow)
    (h : ∀ x ∈ l, r.rowId < x.rowId) : Audit.insertDesc r l = l ++ [r] := by
  induction l with
  | nil => rfl
  | cons x xs ih =>
    have hx : r.rowId < x.rowId := h x (List.mem_cons_self x xs)
    simp only [Audit.insertDesc]
    rw [if_neg (by omega), ih (fun y hy => h y (List.mem_cons_of_mem x hy))]
    rfl

theorem sortByIdDesc_eq_reverse (l : List Audit.AuditRow)
    (h : l.Pairwise (fun a b => a.rowId < b.rowId)) :
    Audit.sortByIdDesc l = l.reverse := by
  induction l with
  | nil => rfl
  | cons x xs ih =>
    rw [List.pairwise_cons] at h
    have hs : Audit.sortByIdDesc (x :: xs) = Audit.insertDesc x (Audit.sortByIdDesc xs) := rfl
    rw [hs, ih h.2,
      insertDesc_append x xs.reverse (fun y hy => h.1 y (List.mem_reverse.mp hy))]
    rw [List.reverse_cons]

theorem audit_reached_inv {db : Audit.AuditDb} (h : Audit.Reached db) :
    db.rows.Pairwise (fun a b => a.rowId < b.rowId)
  ∧ ∀ r ∈ db.rows, r.rowId < db.nextId := by
  induction h with
  | empty => exact ⟨List.Pairwise.nil, by simp [Audit.emptyDb]⟩
  | log hdb ih =>
    obtain ⟨hp, hb⟩ := ih
    simp only [Audit.log]
    constructor
    · apply List.pairwise_append.mpr
      refine ⟨hp, by simp, ?_⟩
      intro x hx y hy
      have hy' := List.mem_singleton.mp hy
      subst hy'
      exact hb x hx
    · intro r hr
      rcases List.mem_append.mp hr with hr | hr
      · exact Nat.lt_succ_of_lt (hb r hr)
      · have hr' := List.mem_singleton.mp hr
        subst hr'
        exact Nat.lt_succ_self _

/--
**C8.** For every database produced by the program (a sequence of
append-only `log` calls), `get_history` returns at most `limit` records,
equal to the matching rows in descending insertion order (most recent
first), each reduced to the `\x7btimestamp, user, action, result-status\x7d`
summary.
-/
theorem get_history_spec (db : Audit.AuditDb) (h : Audit.Reached db)
    (app : String) (limit : Nat) :
    Audit.get_history db app limit
      = (((db.rows.filter (fun r => r.app = app)).reverse).take limit).map Audit.summarize
  ∧ (Audit.get_history db app limit).length ≤ limit := by
  have hp := (audit_reached_inv h).1
  have hf : (db.rows.filter (fun r => r.app = app)).Pairwise (fun a b => a.rowId < b.rowId) :=
    hp.filter _
  constructor
  · unfold Audit.get_history
    rw [sortByIdDesc_eq_reverse _ hf]
  · unfold Audit.get_history
    rw [sortByIdDesc_eq_reverse _ hf]
    simp only [List.length_map, List.length_take]
    exact Nat.min_le_left _ _

def auditDbDemo : Audit.AuditDb :=
  Audit.log
    (Audit.log
      (Audit.log Audit.emptyDb "t1" "alice" "build" "myapp" [] [("status", some "triggered")])
      "t2" "bob" "deploy" "myapp" [] [("status", some "error")])
    "t3" "carol" "deploy" "other" [] []

/-- **C8 witness**: three logged records, history for `myapp` with limit 1. -/
theorem get_history_spec_witness :
    Audit.get_history auditDbDemo "myapp" 1
      = (((auditDbDemo.rows.filter (fun r => r.app = "myapp")).reverse).take 1).map Audit.summarize
  ∧ (Audit.get_history auditDbDemo "myapp" 1).length ≤ 1 :=
  get_history_spec auditDbDemo
    (Audit.Reached.log (Audit.Reached.log (Audit.Reached.log Audit.Reached.empty)))
    "myapp" 1

theorem isWS_pyLowerChar (c : Char) : isWS (pyLowerChar c) = isWS c := by
  unfold pyLowerChar
  split <;> rfl

theorem splitAux_map_lower (f : Char → Char) (hf : ∀ c, isWS (f c) = isWS c) :
    ∀ (cs acc : List Char),
      splitAux (cs.map f) (acc.map f) = (splitAux cs acc).map (List.map f) := by
  intro cs
  induction cs with
  | nil =>
    intro acc
    cases acc <;> simp [splitAux]
  | cons c t ih =>
    intro acc
    simp only [List.map_cons, splitAux, hf c]
    cases hc : isWS c
    · simpa [hc] using ih (c :: acc)
    · cases acc with
      | nil => simpa [hc] using ih []
      | cons a as => simpa [hc, List.map_reverse] using ih []

theorem lowerTokens_eq (t : String) :
    lowerTokens t = (pySplitStr t).map pyLowerStr := by
  have h := splitAux_map_lower pyLowerChar isWS_pyLowerChar t.data []
  simp only [List.map_nil] at h
  unfold lowerTokens pySplitStr pySplit pyLowerStr pyLowerList
  rw [h]
  simp only [List.map_map]
  rfl

theorem parseTextCore_app (raw : String) (parts : List String) (a : String)
    (h : (parseTextCore raw parts).app = some a) : parts[1]? = some a := by
  rcases parts with _ | ⟨t0, ts⟩
  · simp [parseTextCore] at h
  · unfold parseTextCore at h
    repeat' split at h
    all_goals simp_all

theorem parseTextCore_branch (raw : String) (parts : List String) (b : String)
    (h : (parseTextCore raw parts).branch = some b) : parts[2]? = some b := by
  rcases parts with _ | ⟨t0, ts⟩
  · simp [parseTextCore] at h
  · unfold parseTextCore at h
    repeat' split at h
    all_goals simp_all

theorem parseTextCore_build_number (raw : String) (parts : List String) (n : String)
    (h : (parseTextCore raw parts).build_number = some n) : parts[2]? = some n := by
  rcases parts with _ | ⟨t0, ts⟩
  · simp [parseTextCore] at h
  · unfold parseTextCore at h
    repeat' split at h
    all_goals simp_all

theorem parseTextCore_environment (raw : String) (parts : List String) (e : String)
    (h : (parseTextCore raw parts).environment = some e) :
    parts[2]? = some e ∨ parts[3]? = some e := by
  rcases parts with _ | ⟨t0, ts⟩
  · simp [parseTextCore] at h
  · unfold parseTextCore at h
    repeat' split at h
    all_goals simp_all

theorem parseTextCore_action (raw : String) (parts : List String)
    (hv : VALID_ACTIONS.contains (parts.getD 0 "") = true) :
    (parseTextCore raw parts).action = parts.getD 0 "" := by
  rcases parts with _ | ⟨t0, ts⟩
  · exact absurd hv (by decide)
  · have hv' : VALID_ACTIONS.contains t0 = true := by simpa using hv
    have hg : (t0 :: ts).getD 0 "" = t0 := rfl
    rw [hg]
    unfold parseTextCore
    repeat' split
    all_goals simp_all [VALID_ACTIONS]

/--
**C10 (counterexample).** Not every populated field is the lowercase form
of its input token: for an unrecognised first token the populated `action`
field is the literal `"unknown"`, not the lowercased token.
-/
theorem parse_action_not_lowercase_cex :
    (parse_command "Frobnicate x").action = "unknown"
  ∧ pyLowerStr ((pySplitStr (stripAndUnmention "Frobnicate x")).getD 0 "") = "frobnicate"
  ∧ (parse_command "Frobnicate x").action
      ≠ pyLowerStr ((pySplitStr (stripAndUnmention "Frobnicate x")).getD 0 "") := by
  decide

/--
**C10 (amended).** The message is lowercased before tokenising, so every
populated `app`/`branch`/`build_number`/`environment` field equals the
lowercase form of its positional input token (`environment` sits at index
3 for deploy and 2 for rollback), `raw` is exactly the mention-stripped
text with original casing, and `action` equals the lowercased first token
whenever that token lowercases into the action vocabulary (otherwise it is
the literal `"unknown"`, or `"help"` for empty input).
-/
theorem parse_lowercase_fields (msg : String) :
    (parse_command msg).raw = stripAndUnmention msg
  ∧ (∀ a, (parse_command msg).app = some a →
      ((pySplitStr (stripAndUnmention msg)).map pyLowerStr)[1]? = some a)
  ∧ (∀ b, (parse_command msg).branch = some b →
      ((pySplitStr (stripAndUnmention msg)).map pyLowerStr)[2]? = some b)
  ∧ (∀ n, (parse_command msg).build_number = some n →
      ((pySplitStr (stripAndUnmention msg)).map pyLowerStr)[2]? = some n)
  ∧ (∀ e, (parse_command msg).environment = some e →
      (((pySplitStr (stripAndUnmention msg)).map pyLowerStr)[2]? = some e
        ∨ ((pySplitStr (stripAndUnmention msg)).map pyLowerStr)[3]? = some e))
  ∧ (VALID_ACTIONS.contains
        (((pySplitStr (stripAndUnmention msg)).map pyLowerStr).getD 0 "") = true →
      (parse_command msg).action
        = ((pySplitStr (stripAndUnmention msg)).map pyLowerStr).getD 0 "") := by
  have hlt := lowerTokens_eq (stripAndUnmention msg)
  have hcmd : parse_command msg
      = parseTextCore (stripAndUnmention msg)
          ((pySplitStr (stripAndUnmention msg)).map pyLowerStr) := by
    unfold parse_command
    dsimp only
    rw [hlt]
  rw [hcmd]
  exact ⟨parseTextCore_raw _ _,
    fun a h => parseTextCore_app _ _ a h,
    fun b h => parseTextCore_branch _ _ b h,
    fun n h => parseTextCore_build_number _ _ n h,
    fun e h => parseTextCore_environment _ _ e h,
    fun hv => parseTextCore_action _ _ hv⟩

/-- **C10 witness**: the mixed-case deploy command reaches the resolver
with lowercased fields while `raw` keeps the original casing. -/
theorem parse_lowercase_fields_witness :
    ((pySplitStr (stripAndUnmention "Deploy MyApp 42 PROD")).map pyLowerStr)[1]?
      = some "myapp"
  ∧ (parse_command "Deploy MyApp 42 PROD").raw = stripAndUnmention "Deploy MyApp 42 PROD" :=
  ⟨(parse_lowercase_fields "Deploy MyApp 42 PROD").2.1 "myapp" (by decide),
   (parse_lowercase_fields "Deploy MyApp 42 PROD").1⟩
